import Mathlib

/-!
Verification development for the client-side processing pipeline of the
iknowpdf repository (file validator, progress tracker, rate limiter,
error handler, and the `FileProcessor` orchestrator).

The definitions below are a shallow embedding of the TypeScript source in
`src/docs/IMPLEMENTATION_PLAN.md` (the full pipeline source is inlined
there, lines 422-1057).  Browser values are modelled as follows:

* a `File` is `MFile` (declared name, declared MIME type, size, bytes);
* JS numbers used for progress percentages are rationals (`ℚ`);
* timestamps (`Date.now()`) are integers injected as an explicit `now`
  argument (clock injection);
* `Math.random`-generated identifiers (`generateJobId`,
  `generateErrorId`) are injected as explicit string arguments;
* a JS `Map` is an association list; `Map.set` replaces in place;
* a registered progress callback is modelled by its key: the observable
  behaviour of the tracker is the list of `(jobId, value)` deliveries it
  performs, returned alongside the new state;
* vendor-library calls (pdf-lib, pdf.js, canvas) are black boxes; they
  are collected in a `VendorEnv` record of oracles.  The one routine
  whose own control flow matters to the claims, `mergePDFs`, is embedded
  from the source over the `loadPdfPages`/`savePdf` oracles.
-/

instance {ε α : Type} [DecidableEq ε] [DecidableEq α] : DecidableEq (Except ε α) :=
  fun x y =>
    match x, y with
    | .ok a, .ok b =>
      if h : a = b then isTrue (by rw [h]) else isFalse (fun hc => h (Except.ok.inj hc))
    | .error a, .error b =>
      if h : a = b then isTrue (by rw [h]) else isFalse (fun hc => h (Except.error.inj hc))
    | .ok _, .error _ => isFalse (fun hc => Except.noConfusion hc)
    | .error _, .ok _ => isFalse (fun hc => Except.noConfusion hc)

/-- Model of a browser `File`: declared name, declared MIME type,
size in bytes, and content bytes. -/
structure MFile where
  name : String
  type : String
  size : Nat
  content : List Nat
deriving DecidableEq, Repr

/-- `ValidationResult` from the source: `{ isValid, errors }`. -/
structure ValidationResult where
  isValid : Bool
  errors : List String
deriving DecidableEq, Repr

/-- `ProcessingOptions` from the source, plus the undeclared
`additionalFiles` key that `ToolCard.handleProcess` passes for
multi-file tools (JS objects carry extra keys freely). -/
structure ProcessingOptions where
  quality : Option String := none
  compression : Option Bool := none
  format : Option String := none
  pages : List Nat := []
  additionalFiles : List MFile := []
deriving DecidableEq, Repr

/-- `ProcessedFile` from the source: `{ buffer, fileName, mimeType, size }`. -/
structure ProcessedFile where
  buffer : List Nat
  fileName : String
  mimeType : String
  size : Nat
deriving DecidableEq, Repr

/-- Per-tool configuration: `{ allowedTypes, maxSize }`. -/
structure ToolConfig where
  allowedTypes : List String
  maxSize : Nat
deriving DecidableEq, Repr

/-- `ProcessingError extends Error`: `message`, `code`, `recoverable`,
`context`.  Its JS `name` is always the string `"ProcessingError"`. -/
structure ProcessingError where
  message : String
  code : String
  recoverable : Bool
  context : Option String
deriving DecidableEq, Repr

/-- A thrown JS error as observed by a `catch` block: either a
`ProcessingError` thrown by the pipeline itself or some other error
carrying a `name` and a `message` (vendor-library failures). -/
inductive Thrown where
  | procError (e : ProcessingError)
  | jsError (name : String) (message : String)
deriving DecidableEq, Repr

/-- JS `error.name`: `"ProcessingError"` for pipeline errors (set in the
`ProcessingError` constructor), the carried name otherwise. -/
def Thrown.name : Thrown → String
  | .procError _ => "ProcessingError"
  | .jsError n _ => n

/-- JS `error.message`. -/
def Thrown.message : Thrown → String
  | .procError e => e.message
  | .jsError _ m => m

/-- Substring search on character lists (semantics of JS
`String.prototype.includes`). -/
def hasSubstr : List Char → List Char → Bool
  | _, [] => true
  | [], _ :: _ => false
  | c :: rest, p :: ps => List.isPrefixOf (p :: ps) (c :: rest) || hasSubstr rest (p :: ps)

/-- JS `s.includes(pat)`. -/
def strIncludes (s pat : String) : Bool := hasSubstr s.data pat.data

/-- The magic-number table of `SecurityValidator.checkMagicNumbers`. -/
def magicSignatures : List (String × List Nat) :=
  [("application/pdf", [0x25, 0x50, 0x44, 0x46]),
   ("image/jpeg", [0xFF, 0xD8, 0xFF]),
   ("image/png", [0x89, 0x50, 0x4E, 0x47]),
   ("application/zip", [0x50, 0x4B, 0x03, 0x04]),
   ("application/vnd.openxmlformats-officedocument.wordprocessingml.document",
    [0x50, 0x4B, 0x03, 0x04]),
   ("application/vnd.openxmlformats-officedocument.spreadsheetml.sheet",
    [0x50, 0x4B, 0x03, 0x04])]

/-- `SecurityValidator.checkMagicNumbers`: unknown declared type is
trivially valid; otherwise every signature byte must equal the byte at
its index (an out-of-range read yields `undefined`, which fails the
comparison — here `List.get?` returning `none`). -/
def checkMagicNumbers (bytes : List Nat) (mimeType : String) : Bool :=
  match magicSignatures.lookup mimeType with
  | none => true
  | some signature => signature.enum.all (fun p => bytes.get? p.1 == some p.2)

/-- `SecurityValidator.validateFileContent`: reads the first 16 bytes
and checks them against the declared MIME type's signature (the
`FileReader` success path). -/
def validateFileContent (file : MFile) : Bool :=
  checkMagicNumbers (file.content.take 16) file.type

/-- The `dangerousPatterns` check of `validateFile`: the file name
matches one of `/\.exe$/i`, `/\.bat$/i`, `/\.cmd$/i`, `/\.scr$/i`,
i.e. its lower-cased character list ends with one of the four
extensions. -/
def dangerousName (name : String) : Bool :=
  [".exe", ".bat", ".cmd", ".scr"].any
    (fun ext => List.isSuffixOf ext.data (name.data.map Char.toLower))

/-- `validateFile(file, allowedTypes, maxSize)`: all four checks run and
their error strings are collected in order; the result is valid iff the
list is empty.  (The size-limit message interpolates `formatBytes`,
a floating-point formatter; the formatted text is abstracted here since
no property depends on it.) -/
def validateFile (file : MFile) (allowedTypes : List String) (maxSize : Nat) :
    ValidationResult :=
  let errors :=
    (if allowedTypes.contains file.type then []
     else ["File type " ++ file.type ++ " not supported"]) ++
    (if file.size > maxSize then ["File size exceeds limit"] else []) ++
    (if file.name.length > 255 then ["File name too long"] else []) ++
    (if dangerousName file.name then ["File type not allowed for security reasons"]
     else [])
  { isValid := errors.isEmpty, errors := errors }

/-- `ProgressTracker` state: the keys of `progressCallbacks`.  Since at
most one callback is registered per job id, the observable state is the
list of registered job ids, and the observable behaviour of each
operation is the list of `(jobId, value)` deliveries it makes. -/
structure ProgressTracker where
  callbacks : List String
deriving DecidableEq, Repr

/-- `trackProgress`: `progressCallbacks.set(jobId, callback)` — key set
semantics (replacing a callback leaves the key set unchanged). -/
def ProgressTracker.trackProgress (t : ProgressTracker) (jobId : String) :
    ProgressTracker :=
  if jobId ∈ t.callbacks then t else ⟨t.callbacks ++ [jobId]⟩

/-- `updateProgress(jobId, progress)`: if a callback is registered it is
invoked with `Math.min(100, Math.max(0, progress))`; otherwise nothing
happens. -/
def ProgressTracker.updateProgress (t : ProgressTracker) (jobId : String) (p : ℚ) :
    ProgressTracker × List (String × ℚ) :=
  if jobId ∈ t.callbacks then (t, [(jobId, min 100 (max 0 p))]) else (t, [])

/-- `completeProgress(jobId)`: `updateProgress(jobId, 100)` then
`progressCallbacks.delete(jobId)`. -/
def ProgressTracker.completeProgress (t : ProgressTracker) (jobId : String) :
    ProgressTracker × List (String × ℚ) :=
  let s := t.updateProgress jobId 100
  (⟨s.1.callbacks.erase jobId⟩, s.2)

/-- `removeProgress(jobId)`: deregister without emitting. -/
def ProgressTracker.removeProgress (t : ProgressTracker) (jobId : String) :
    ProgressTracker :=
  ⟨t.callbacks.erase jobId⟩

/-- Replay a routine's sequence of `updateProgress` values through the
tracker, collecting the deliveries. -/
def runUpdates : ProgressTracker → String → List ℚ →
    ProgressTracker × List (String × ℚ)
  | t, _, [] => (t, [])
  | t, jobId, v :: vs =>
    let s1 := t.updateProgress jobId v
    let s2 := runUpdates s1.1 jobId vs
    (s2.1, s1.2 ++ s2.2)

/-- `RateLimiter` state: the `requests` map from identifier to its
recorded timestamp list. -/
structure RateLimiter where
  requests : List (String × List Int)
deriving DecidableEq, Repr

/-- `private readonly maxRequests = 50`. -/
def RateLimiter.maxRequests : Nat := 50

/-- `private readonly windowMs = 15 * 60 * 1000`. -/
def RateLimiter.windowMs : Int := 15 * 60 * 1000

/-- JS `Map.set`: replace the entry in place if the key is present,
append a fresh entry otherwise. -/
def mapSet (m : List (String × List Int)) (k : String) (v : List Int) :
    List (String × List Int) :=
  match m with
  | [] => [(k, v)]
  | (k', v') :: rest => if k' = k then (k, v) :: rest else (k', v') :: mapSet rest k v

/-- `RateLimiter.isAllowed(identifier)` with the clock injected: prune
the identifier's timestamps to the trailing window, reject without any
mutation at or above the cap, otherwise record `now` (pruned list plus
`now`) and accept. -/
def RateLimiter.isAllowed (rl : RateLimiter) (identifier : String) (now : Int) :
    Bool × RateLimiter :=
  let userRequests := (rl.requests.lookup identifier).getD []
  let validRequests := userRequests.filter (fun ts => now - ts < RateLimiter.windowMs)
  if validRequests.length ≥ RateLimiter.maxRequests then (false, rl)
  else (true, ⟨mapSet rl.requests identifier (validRequests ++ [now])⟩)

/-- Iterate `isAllowed` for one identifier over a list of call times,
collecting the returned booleans. -/
def runCalls : RateLimiter → String → List Int → List Bool × RateLimiter
  | rl, _, [] => ([], rl)
  | rl, ident, t :: ts =>
    let r := rl.isAllowed ident t
    let rest := runCalls r.2 ident ts
    (r.1 :: rest.1, rest.2)

/-- `ErrorHandler.getUserFriendlyMessage`. -/
def getUserFriendlyMessage (name message : String) : String :=
  if name = "QuotaExceededError" then
    "Storage quota exceeded. Please free up space and try again."
  else if name = "NetworkError" then
    "Network connection lost. Please check your internet and retry."
  else if strIncludes message "corrupted" then
    "The file appears to be corrupted. Please try with a different file."
  else if strIncludes message "timeout" then
    "Processing timed out. Please try with a smaller file."
  else if strIncludes message "memory" then
    "Insufficient memory to process this file. Please try with a smaller file."
  else "An unexpected error occurred. Please try again."

/-- `ErrorHandler.isRecoverable`: recoverable unless the error's `name`
is one of the three listed. -/
def isRecoverable (name : String) : Bool :=
  !(["QuotaExceededError", "SecurityError", "NotSupportedError"].contains name)

/-- `ErrorHandler.handleProcessingError(error, context)` with the random
`errorId` injected.  Note that the source passes `errorId` as the
second constructor argument of `ProcessingError`, which is its `code`
field. -/
def ErrorHandler.handleProcessingError (err : Thrown) (errorId : String)
    (context : String) : ProcessingError :=
  { message := getUserFriendlyMessage err.name err.message
    code := errorId
    recoverable := isRecoverable err.name
    context := some context }

/-- The static per-tool configuration table of
`FileProcessor.getToolConfig`. -/
def toolConfigs : List (String × ToolConfig) :=
  [("pdf-to-word", ⟨["application/pdf"], 100 * 1024 * 1024⟩),
   ("merge-pdf", ⟨["application/pdf"], 100 * 1024 * 1024⟩),
   ("compress-pdf", ⟨["application/pdf"], 100 * 1024 * 1024⟩),
   ("image-resize", ⟨["image/jpeg", "image/png", "image/gif", "image/webp"],
    50 * 1024 * 1024⟩),
   ("image-compress", ⟨["image/jpeg", "image/png", "image/gif", "image/webp"],
    50 * 1024 * 1024⟩)]

/-- `FileProcessor.getToolConfig`: table lookup with the permissive
fallback `{ allowedTypes: ['*/*'], maxSize: 100MB }`. -/
def getToolConfig (toolId : String) : ToolConfig :=
  (toolConfigs.lookup toolId).getD ⟨["*/*"], 100 * 1024 * 1024⟩

/-- `FileProcessor.validateFileForTool`: content (magic-number) check
first, then `validateFile` against the tool's allow-list and size
cap. -/
def validateFileForTool (file : MFile) (toolId : String) : ValidationResult :=
  let toolConfig := getToolConfig toolId
  if validateFileContent file then
    validateFile file toolConfig.allowedTypes toolConfig.maxSize
  else ⟨false, ["File content validation failed"]⟩

/-- Oracles for the vendor-library calls made by the tool routines.  A
routine's run is summarised by the progress values it reports (all via
`updateProgress` with its job id) and its outcome (`ProcessedFile` or a
thrown error).  `mergePDFs` is embedded concretely below over
`loadPdfPages` (pdf-lib `PDFDocument.load` + `copyPages`) and `savePdf`
(pdf-lib `save`). -/
structure VendorEnv where
  loadPdfPages : MFile → Except Thrown (List Nat)
  savePdf : List Nat → List Nat
  runPDFToWord : MFile → ProcessingOptions → List ℚ × Except Thrown ProcessedFile
  runCompressPDF : MFile → ProcessingOptions → List ℚ × Except Thrown ProcessedFile
  runResizeImage : MFile → ProcessingOptions → List ℚ × Except Thrown ProcessedFile
  runCompressImage : MFile → ProcessingOptions → List ℚ × Except Thrown ProcessedFile

/-- The page-accumulating loop of `FileProcessor.mergePDFs`: load each
input in order, append its pages, and report
`10 + ((i + 1) / totalFiles) * 80` after each file; a load failure
propagates as a thrown error. -/
def mergeLoop (env : VendorEnv) (n : Nat) :
    List MFile → Nat → List Nat → List ℚ → List ℚ × Except Thrown (List Nat)
  | [], _, acc, vals => (vals, Except.ok acc)
  | f :: rest, i, acc, vals =>
    match env.loadPdfPages f with
    | Except.error e => (vals, Except.error e)
    | Except.ok pages =>
      mergeLoop env n rest (i + 1) (acc ++ pages)
        (vals ++ [10 + (((i : ℚ) + 1) / (n : ℚ)) * 80])

/-- `FileProcessor.mergePDFs(files, options, jobId)`: reports 10, merges
the pages of every file in `files` in order, saves, and returns
`merged_document.pdf`.  Note the `options` argument is never read. -/
def mergePDFs (env : VendorEnv) (files : List MFile) (opts : ProcessingOptions) :
    List ℚ × Except Thrown ProcessedFile :=
  let totalFiles := files.length
  let _ := opts
  match mergeLoop env totalFiles files 0 [] [10] with
  | (vals, Except.error e) => (vals, Except.error e)
  | (vals, Except.ok pages) =>
    let mergedBytes := env.savePdf pages
    (vals, Except.ok ⟨mergedBytes, "merged_document.pdf", "application/pdf",
      mergedBytes.length⟩)

/-- `FileProcessor.processFileByTool`: the tag dispatch over the five
known tool ids.  The `merge-pdf` case passes `[file]` — only the
primary file — to `mergePDFs`; the default case throws the
`TOOL_NOT_FOUND` `ProcessingError`. -/
def processFileByTool (env : VendorEnv) (file : MFile) (toolId : String)
    (opts : ProcessingOptions) : List ℚ × Except Thrown ProcessedFile :=
  if toolId = "pdf-to-word" then env.runPDFToWord file opts
  else if toolId = "merge-pdf" then mergePDFs env [file] opts
  else if toolId = "compress-pdf" then env.runCompressPDF file opts
  else if toolId = "image-resize" then env.runResizeImage file opts
  else if toolId = "image-compress" then env.runCompressImage file opts
  else ([], Except.error (Thrown.procError
    ⟨"Tool " ++ toolId ++ " not implemented", "TOOL_NOT_FOUND", false,
     some "tool_processing"⟩))

/-- `FileProcessor.processFile(file, toolId, options)` with the job id
and the error handler's random id injected.  Mirrors the source's
try/catch: a validation failure throws the `VALIDATION_ERROR`
`ProcessingError`, which the catch block passes (with any other thrown
error) through `ErrorHandler.handleProcessingError` after
`removeProgress`; the success path reports 0, runs the routine, and
completes progress.  Returns the outcome, the tracker state, and the
callback deliveries made during the call. -/
def processFile (env : VendorEnv) (t : ProgressTracker) (jobId : String)
    (file : MFile) (toolId : String) (opts : ProcessingOptions) (errorId : String) :
    Except ProcessingError ProcessedFile × ProgressTracker × List (String × ℚ) :=
  let validation := validateFileForTool file toolId
  if validation.isValid then
    let s1 := t.updateProgress jobId 0
    let run := processFileByTool env file toolId opts
    match run.2 with
    | Except.ok result =>
      let s2 := runUpdates s1.1 jobId run.1
      let s3 := ProgressTracker.completeProgress s2.1 jobId
      (Except.ok result, s3.1, s1.2 ++ s2.2 ++ s3.2)
    | Except.error err =>
      let s2 := runUpdates s1.1 jobId run.1
      (Except.error (ErrorHandler.handleProcessingError err errorId
        ("tool_" ++ toolId)),
       ProgressTracker.removeProgress s2.1 jobId, s1.2 ++ s2.2)
  else
    let thrown := Thrown.procError
      ⟨String.intercalate ", " validation.errors, "VALIDATION_ERROR", true,
       some "file_validation"⟩
    (Except.error (ErrorHandler.handleProcessingError thrown errorId
      ("tool_" ++ toolId)),
     t.removeProgress jobId, [])

/-! ## Concrete fixtures used by the closed theorems and witnesses -/

/-- The `%PDF` magic bytes. -/
def pdfMagic : List Nat := [0x25, 0x50, 0x44, 0x46]

/-- A small well-formed PDF input. -/
def fA : MFile := ⟨"a.pdf", "application/pdf", 100, pdfMagic⟩

/-- A second small well-formed PDF input. -/
def fB : MFile := ⟨"b.pdf", "application/pdf", 100, pdfMagic⟩

/-- A 200MB PDF — over the 100MB cap of every PDF tool. -/
def bigPdf : MFile := ⟨"big.pdf", "application/pdf", 200 * 1024 * 1024, pdfMagic⟩

/-- A file whose declared MIME type is the literal string `*/*` — the
only declared type the fallback allow-list accepts. -/
def starFile : MFile := ⟨"f.bin", "*/*", 10, []⟩

/-- The empty progress tracker. -/
def trackerEmpty : ProgressTracker := ⟨[]⟩

/-- A vendor environment whose abstract routines all fail. -/
def envA : VendorEnv :=
  { loadPdfPages := fun _ => Except.ok [0]
    savePdf := fun p => p
    runPDFToWord := fun _ _ => ([], Except.error (Thrown.jsError "Error" "v"))
    runCompressPDF := fun _ _ => ([], Except.error (Thrown.jsError "Error" "v"))
    runResizeImage := fun _ _ => ([], Except.error (Thrown.jsError "Error" "v"))
    runCompressImage := fun _ _ => ([], Except.error (Thrown.jsError "Error" "v")) }

/-- A vendor environment whose abstract routines all succeed with a
dummy output — distinct from `envA` wherever a routine is consulted. -/
def envB : VendorEnv :=
  { loadPdfPages := fun _ => Except.ok [7]
    savePdf := fun p => p ++ p
    runPDFToWord := fun _ _ => ([10], Except.ok ⟨[1], "o.html", "text/html", 1⟩)
    runCompressPDF := fun _ _ => ([10], Except.ok ⟨[1], "o.pdf", "application/pdf", 1⟩)
    runResizeImage := fun _ _ => ([10], Except.ok ⟨[1], "o.png", "image/png", 1⟩)
    runCompressImage := fun _ _ => ([10], Except.ok ⟨[1], "o.jpg", "image/jpeg", 1⟩) }

/-- A vendor environment distinguishing the two merge inputs: `a.pdf`
has pages `[1, 2]`, everything else has pages `[3, 4]`; saving is the
identity on the page list. -/
def envC3 : VendorEnv := { envA with
  loadPdfPages := fun f => if f.name = "a.pdf" then Except.ok [1, 2] else Except.ok [3, 4] }

/-- Options carrying `fB` as an additional merge input, as
`ToolCard.handleProcess` builds them. -/
def optsAddB : ProcessingOptions := { additionalFiles := [fB] }

/-! ## Claims -/

/-- C1: the claim says a file whose validation produces errors (here a
200MB PDF against the 100MB cap of `compress-pdf`) makes `processFile`
fail with a `ProcessingError` whose `code` is `VALIDATION_ERROR` and
whose `recoverable` is `true`.  The code throws that error internally,
but its own catch block re-wraps it through
`ErrorHandler.handleProcessingError`, which stores the random error id
in the `code` field: the caller observes `code = errorId` (never the
string `VALIDATION_ERROR`), while `recoverable` stays `true`. -/
theorem C1_validation_code_replaced_by_error_id :
    (processFile envA trackerEmpty "job1" bigPdf "compress-pdf" {} "k3j9x2m1q").1 =
      Except.error ⟨"An unexpected error occurred. Please try again.", "k3j9x2m1q",
        true, some "tool_compress-pdf"⟩ ∧
    "k3j9x2m1q" ≠ "VALIDATION_ERROR" := by
  constructor
  · rfl
  · decide

/-- C2: the claim says an unknown `toolId` makes `processFile` fail with
`code = TOOL_NOT_FOUND` and `recoverable = false`.  On the one input
shape that even reaches dispatch (declared type literally `*/*`), the
dispatcher throws that error, but the catch block re-wraps it: the
caller observes `code = errorId` and `recoverable = true` (the wrapped
error's name `ProcessingError` is not in the non-recoverable list). -/
theorem C2_tool_not_found_code_and_flag_lost :
    (processFile envA trackerEmpty "job1" starFile "unknown-tool-xyz" {} "k3j9x2m1q").1 =
      Except.error ⟨"An unexpected error occurred. Please try again.", "k3j9x2m1q",
        true, some "tool_unknown-tool-xyz"⟩ ∧
    "k3j9x2m1q" ≠ "TOOL_NOT_FOUND" := by
  constructor
  · rfl
  · decide

/-- C3: the claim says `processFile(file, 'merge-pdf', options)` merges
the primary file together with every file in `options.additionalFiles`.
The dispatcher's `merge-pdf` case passes `[file]` alone to `mergePDFs`
and never reads `additionalFiles`: with `a.pdf` (pages `[1, 2]`) as
primary and `b.pdf` (pages `[3, 4]`) as the additional file, the merged
output contains only `a.pdf`'s pages. -/
theorem C3_merge_ignores_additional_files :
    (processFile envC3 trackerEmpty "job1" fA "merge-pdf" optsAddB "e1").1 =
      Except.ok ⟨[1, 2], "merged_document.pdf", "application/pdf", 2⟩ ∧
    (processFile envC3 trackerEmpty "job1" fA "merge-pdf" optsAddB "e1").1 ≠
      Except.ok ⟨[1, 2, 3, 4], "merged_document.pdf", "application/pdf", 4⟩ := by
  constructor
  · rfl
  · decide

/-- C7: `updateProgress` delivers the registered callback the value
clamped into [0, 100] — in particular 150 is delivered as 100 and -10
as 0 — and with no registered callback it is a silent no-op. -/
theorem C7_update_progress_clamps_and_noop (t : ProgressTracker) (jid : String)
    (p : ℚ) :
    (jid ∈ t.callbacks →
      t.updateProgress jid p = (t, [(jid, min 100 (max 0 p))]) ∧
      t.updateProgress jid 150 = (t, [(jid, 100)]) ∧
      t.updateProgress jid (-10) = (t, [(jid, 0)])) ∧
    (jid ∉ t.callbacks → t.updateProgress jid p = (t, [])) := by
  constructor
  · intro h
    have h150 : min (100 : ℚ) (max 0 150) = 100 := by norm_num
    have hneg : min (100 : ℚ) (max 0 (-10)) = 0 := by norm_num
    exact ⟨by simp [ProgressTracker.updateProgress, h],
           by simp [ProgressTracker.updateProgress, h, h150]; norm_num,
           by simp [ProgressTracker.updateProgress, h, hneg]⟩
  · intro h
    simp [ProgressTracker.updateProgress, h]

/-- C7 witness: with `"j"` registered, 150 is delivered as 100; with
nothing registered, the call is a no-op. -/
theorem C7_update_progress_clamps_and_noop_witness :
    ProgressTracker.updateProgress ⟨["j"]⟩ "j" 150 = (⟨["j"]⟩, [("j", 100)]) ∧
    ProgressTracker.updateProgress ⟨[]⟩ "j" 150 = (⟨[]⟩, []) :=
  ⟨((C7_update_progress_clamps_and_noop ⟨["j"]⟩ "j" 150).1 (by decide)).2.1,
   (C7_update_progress_clamps_and_noop ⟨[]⟩ "j" 150).2 (by decide)⟩

/-- C8: a file whose name matches a dangerous extension is rejected by
`validateFile` regardless of the declared MIME type and the allow-list:
the security error is always collected, so the error list is never
empty. -/
theorem C8_dangerous_extension_rejected (file : MFile) (allowedTypes : List String)
    (maxSize : Nat) (h : dangerousName file.name = true) :
    (validateFile file allowedTypes maxSize).isValid = false := by
  simp only [validateFile, h, if_true]
  simp [List.isEmpty_iff, List.append_eq_nil]

/-- C8 witness: `malware.exe` spoofed to `application/pdf` (with real
PDF magic bytes and an allow-list admitting `application/pdf`) is still
rejected. -/
theorem C8_dangerous_extension_rejected_witness :
    dangerousName "malware.exe" = true ∧
    (validateFile ⟨"malware.exe", "application/pdf", 100, pdfMagic⟩
      ["application/pdf"] 104857600).isValid = false :=
  ⟨by decide, C8_dangerous_extension_rejected _ _ _ (by decide)⟩

/-! ## Helper lemmas -/

/-- `validateFile`'s validity flag is exactly the emptiness of its
collected error list. -/
lemma validateFile_isValid_eq (file : MFile) (allowedTypes : List String)
    (maxSize : Nat) :
    (validateFile file allowedTypes maxSize).isValid =
      (validateFile file allowedTypes maxSize).errors.isEmpty := rfl

/-- When validation fails, `processFile` takes the catch path without
consulting any routine: the result is the wrapped validation error, the
tracker after `removeProgress`, and no deliveries — the vendor
environment is never consulted. -/
lemma processFile_invalid (env : VendorEnv) (t : ProgressTracker) (jid : String)
    (file : MFile) (toolId : String) (opts : ProcessingOptions) (errId : String)
    (h : (validateFileForTool file toolId).isValid = false) :
    processFile env t jid file toolId opts errId =
      (Except.error (ErrorHandler.handleProcessingError
        (Thrown.procError ⟨String.intercalate ", "
          (validateFileForTool file toolId).errors,
          "VALIDATION_ERROR", true, some "file_validation"⟩) errId
        ("tool_" ++ toolId)),
       t.removeProgress jid, []) := by
  simp only [processFile, h]
  simp

/-- Replaying progress values for an unregistered job id is a no-op with
no deliveries. -/
lemma runUpdates_not_mem (jid : String) (t : ProgressTracker)
    (h : jid ∉ t.callbacks) :
    ∀ vals : List ℚ, runUpdates t jid vals = (t, []) := by
  intro vals
  induction vals with
  | nil => rfl
  | cons v vs ih => simp [runUpdates, ProgressTracker.updateProgress, h, ih]

/-- `mapSet` makes the written key map to the written value. -/
lemma mapSet_lookup (m : List (String × List Int)) (k : String) (v : List Int) :
    (mapSet m k v).lookup k = some v := by
  induction m with
  | nil => simp [mapSet, List.lookup]
  | cons hd tl ih =>
    obtain ⟨k', v'⟩ := hd
    by_cases h : k' = k
    · simp [mapSet, h, List.lookup]
    · have hbk : (k == k') = false := by
        simp [beq_eq_false_iff_ne]
        exact fun hk => h hk.symm
      simp [mapSet, h, List.lookup, hbk, ih]

/-- `runCalls` splits over list append. -/
lemma runCalls_append (ident : String) :
    ∀ (ts₁ ts₂ : List Int) (rl : RateLimiter),
      runCalls rl ident (ts₁ ++ ts₂) =
        ((runCalls rl ident ts₁).1 ++ (runCalls (runCalls rl ident ts₁).2 ident ts₂).1,
         (runCalls (runCalls rl ident ts₁).2 ident ts₂).2) := by
  intro ts₁
  induction ts₁ with
  | nil => intro ts₂ rl; simp [runCalls]
  | cons t ts ih => intro ts₂ rl; simp [runCalls, ih]

/-- While the identifier's recorded in-window timestamps stay at or
below the cap, every call is allowed and the recorded list grows by
exactly the call times, in order.  All times (recorded and upcoming)
are assumed to lie in one window `[T, T + windowMs)`, so the pruning
filter never removes anything. -/
lemma runCalls_under_cap (ident : String) (T : Int) :
    ∀ (ts : List Int) (rl : RateLimiter) (l : List Int),
      (rl.requests.lookup ident).getD [] = l →
      (∀ u ∈ l, T ≤ u ∧ u < T + RateLimiter.windowMs) →
      (∀ t ∈ ts, T ≤ t ∧ t < T + RateLimiter.windowMs) →
      l.length + ts.length ≤ RateLimiter.maxRequests →
      (runCalls rl ident ts).1 = List.replicate ts.length true ∧
      ((runCalls rl ident ts).2.requests.lookup ident).getD [] = l ++ ts := by
  intro ts
  induction ts with
  | nil =>
    intro rl l hl _ _ _
    constructor <;> simp [runCalls, hl]
  | cons t ts ih =>
    intro rl l hl hlW htW hlen
    have hfilter : l.filter (fun u => decide (t - u < RateLimiter.windowMs)) = l := by
      rw [List.filter_eq_self]
      intro u hu
      have h1 := hlW u hu
      have h2 := htW t (List.mem_cons_self t ts)
      simp only [decide_eq_true_eq]
      omega
    have hlt : ¬ (l.length ≥ RateLimiter.maxRequests) := by
      simp only [List.length_cons] at hlen
      omega
    have hstep : rl.isAllowed ident t =
        (true, ⟨mapSet rl.requests ident (l ++ [t])⟩) := by
      simp only [RateLimiter.isAllowed, hl, hfilter]
      rw [if_neg hlt]
    have hnext := ih ⟨mapSet rl.requests ident (l ++ [t])⟩ (l ++ [t])
      (by simp [mapSet_lookup])
      (by
        intro u hu
        rcases List.mem_append.mp hu with hu | hu
        · exact hlW u hu
        · rw [List.mem_singleton.mp hu]
          exact htW t (List.mem_cons_self t ts))
      (fun t' ht' => htW t' (List.mem_cons_of_mem _ ht'))
      (by
        have hlen' := hlen
        simp only [List.length_append, List.length_cons, List.length_nil,
          List.length_singleton] at hlen' ⊢
        omega)
    constructor
    · simp only [runCalls, hstep, List.length_cons, List.replicate_succ]
      simp [hnext.1]
    · simp only [runCalls, hstep]
      simpa [List.append_assoc] using hnext.2

/-! ## Remaining claims -/

/-- C4: a file whose content-signature check or metadata check produces
errors never reaches a tool routine: `processFile` fails, and its whole
result is independent of the vendor environment (so no routine's
behaviour can influence — or be influenced by — the call). -/
theorem C4_invalid_file_never_reaches_routine (env env' : VendorEnv)
    (t : ProgressTracker) (jid : String) (file : MFile) (toolId : String)
    (opts : ProcessingOptions) (errId : String)
    (h : validateFileContent file = false ∨
      (validateFile file (getToolConfig toolId).allowedTypes
        (getToolConfig toolId).maxSize).errors ≠ []) :
    (∃ e, (processFile env t jid file toolId opts errId).1 = Except.error e) ∧
    processFile env t jid file toolId opts errId =
      processFile env' t jid file toolId opts errId := by
  have hv : (validateFileForTool file toolId).isValid = false := by
    simp only [validateFileForTool]
    cases hc : validateFileContent file
    · simp
    · rcases h with h | h
      · rw [hc] at h
        cases h
      · rw [if_pos rfl, validateFile_isValid_eq]
        simp [List.isEmpty_iff, h]
  constructor
  · exact ⟨ErrorHandler.handleProcessingError
      (Thrown.procError ⟨String.intercalate ", "
        (validateFileForTool file toolId).errors,
        "VALIDATION_ERROR", true, some "file_validation"⟩) errId
      ("tool_" ++ toolId),
      by rw [processFile_invalid env t jid file toolId opts errId hv]⟩
  · rw [processFile_invalid env t jid file toolId opts errId hv,
      processFile_invalid env' t jid file toolId opts errId hv]

/-- C4 witness: the oversized PDF against `compress-pdf`, under two
vendor environments that disagree everywhere a routine is consulted. -/
theorem C4_invalid_file_never_reaches_routine_witness :
    (∃ e, (processFile envA trackerEmpty "j1" bigPdf "compress-pdf" {} "e1").1 =
      Except.error e) ∧
    processFile envA trackerEmpty "j1" bigPdf "compress-pdf" {} "e1" =
      processFile envB trackerEmpty "j1" bigPdf "compress-pdf" {} "e1" :=
  C4_invalid_file_never_reaches_routine envA envB trackerEmpty "j1" bigPdf
    "compress-pdf" {} "e1" (Or.inr (by decide))

/-- C5: starting from an empty history, each of the first 50 `isAllowed`
calls for an identifier within one 15-minute window returns true, and
the 51st call within the same window returns false. -/
theorem C5_rate_limiter_allows_fifty_then_rejects (ts : List Int) (T : Int)
    (ident : String) (hlen : ts.length = 51)
    (hwin : ∀ t ∈ ts, T ≤ t ∧ t < T + RateLimiter.windowMs) :
    (runCalls ⟨[]⟩ ident ts).1 = List.replicate 50 true ++ [false] := by
  have hlen50 : (ts.take 50).length = 50 := by simp [List.length_take, hlen]
  have hdrop1 : (ts.drop 50).length = 1 := by simp [List.length_drop, hlen]
  obtain ⟨t51, ht51⟩ := List.length_eq_one.mp hdrop1
  have hcap := runCalls_under_cap ident T (ts.take 50) ⟨[]⟩ []
    (by simp)
    (by intro u hu; cases hu)
    (fun t ht => hwin t (List.take_subset 50 ts ht))
    (by simp [hlen50, RateLimiter.maxRequests])
  have hstate : (((runCalls ⟨[]⟩ ident (ts.take 50)).2.requests.lookup ident).getD []) =
      ts.take 50 := by simpa using hcap.2
  have ht51mem : t51 ∈ ts := by
    refine List.drop_subset 50 ts ?_
    rw [ht51]
    exact List.mem_singleton_self t51
  have hfilter50 : (ts.take 50).filter
      (fun u => decide (t51 - u < RateLimiter.windowMs)) = ts.take 50 := by
    rw [List.filter_eq_self]
    intro u hu
    have h1 := hwin u (List.take_subset 50 ts hu)
    have h2 := hwin t51 ht51mem
    simp only [decide_eq_true_eq]
    omega
  have hreject : (runCalls ⟨[]⟩ ident (ts.take 50)).2.isAllowed ident t51 =
      (false, (runCalls ⟨[]⟩ ident (ts.take 50)).2) := by
    simp only [RateLimiter.isAllowed, hstate, hfilter50]
    rw [if_pos (by rw [hlen50]; decide)]
  have hts : runCalls ⟨[]⟩ ident ts = runCalls ⟨[]⟩ ident (ts.take 50 ++ ts.drop 50) := by
    rw [List.take_append_drop]
  have hcap1 : (runCalls ⟨[]⟩ ident (ts.take 50)).1 = List.replicate 50 true := by
    rw [hcap.1, hlen50]
  rw [hts, runCalls_append, hcap1, ht51]
  simp [runCalls, hreject]

/-- C5 witness: 51 calls at the same instant from an empty history. -/
theorem C5_rate_limiter_allows_fifty_then_rejects_witness :
    (runCalls ⟨[]⟩ "u" (List.replicate 51 0)).1 =
      List.replicate 50 true ++ [false] :=
  C5_rate_limiter_allows_fifty_then_rejects (List.replicate 51 0) 0 "u"
    (by decide) (by decide)

/-- C6: when `isAllowed` finds the identifier at or above the cap of
in-window timestamps it returns false and returns the limiter's state
exactly as it was; and whenever a call returns true, the new state
records the pruned list with the current timestamp appended — only a
successful call appends. -/
theorem C6_rejected_attempt_not_recorded (rl : RateLimiter) (ident : String)
    (now : Int)
    (hcap : ((((rl.requests.lookup ident).getD []).filter
      (fun u => now - u < RateLimiter.windowMs)).length ≥ RateLimiter.maxRequests)) :
    rl.isAllowed ident now = (false, rl) ∧
    ∀ (rl' : RateLimiter) (ident' : String) (now' : Int),
      (rl'.isAllowed ident' now').1 = true →
      (rl'.isAllowed ident' now').2.requests = mapSet rl'.requests ident'
        ((((rl'.requests.lookup ident').getD []).filter
          (fun u => now' - u < RateLimiter.windowMs)) ++ [now']) := by
  constructor
  · simp only [RateLimiter.isAllowed]
    rw [if_pos hcap]
  · intro rl' ident' now' htrue
    by_cases hc : ((((rl'.requests.lookup ident').getD []).filter
        (fun u => now' - u < RateLimiter.windowMs)).length ≥ RateLimiter.maxRequests)
    · exfalso
      simp only [RateLimiter.isAllowed] at htrue
      rw [if_pos hc] at htrue
      exact Bool.false_ne_true htrue
    · simp only [RateLimiter.isAllowed]
      rw [if_neg hc]

/-- The state of an identifier that has exhausted its quota: 50
timestamps at time 0. -/
def rlFull : RateLimiter := ⟨[("u", List.replicate 50 0)]⟩

/-- C6 witness: at the cap, the call is rejected and the state is
returned unchanged. -/
theorem C6_rejected_attempt_not_recorded_witness :
    RateLimiter.isAllowed rlFull "u" 1 = (false, rlFull) :=
  (C6_rejected_attempt_not_recorded rlFull "u" 1 (by decide)).1

/-- C9 (implicit): for a tool id absent from the configuration
registry, the fallback config is `{ allowedTypes: ['*/*'], maxSize:
100MB }`; because `validateFile` tests literal membership of the
declared type in the allow-list, every `processFile` call for such a
tool with a file whose declared type is not the literal string `*/*`
fails at validation, never consulting the dispatcher (so its
`TOOL_NOT_FOUND` branch is unreachable for all such calls). -/
theorem C9_unknown_tool_fallback_unreachable_dispatch (toolId : String)
    (h : toolConfigs.lookup toolId = none) :
    getToolConfig toolId = ⟨["*/*"], 100 * 1024 * 1024⟩ ∧
    ∀ file : MFile, file.type ≠ "*/*" →
      (validateFileForTool file toolId).isValid = false ∧
      ∀ (env env' : VendorEnv) (t : ProgressTracker) (jid : String)
        (opts : ProcessingOptions) (errId : String),
        (∃ e, (processFile env t jid file toolId opts errId).1 = Except.error e) ∧
        processFile env t jid file toolId opts errId =
          processFile env' t jid file toolId opts errId := by
  have hcfg : getToolConfig toolId = ⟨["*/*"], 100 * 1024 * 1024⟩ := by
    simp [getToolConfig, h]
  refine ⟨hcfg, fun file hty => ?_⟩
  have hmem : file.type ∉ (["*/*"] : List String) := by simp [hty]
  have herr : (validateFile file ["*/*"] (100 * 1024 * 1024)).errors ≠ [] := by
    simp [validateFile, hty]
  have hv : (validateFileForTool file toolId).isValid = false := by
    simp only [validateFileForTool, hcfg]
    cases hc : validateFileContent file
    · simp
    · rw [if_pos rfl, validateFile_isValid_eq]
      simp [List.isEmpty_iff, herr]
  refine ⟨hv, fun env env' t jid opts errId => ?_⟩
  constructor
  · exact ⟨ErrorHandler.handleProcessingError
      (Thrown.procError ⟨String.intercalate ", "
        (validateFileForTool file toolId).errors,
        "VALIDATION_ERROR", true, some "file_validation"⟩) errId
      ("tool_" ++ toolId),
      by rw [processFile_invalid env t jid file toolId opts errId hv]⟩
  · rw [processFile_invalid env t jid file toolId opts errId hv,
      processFile_invalid env' t jid file toolId opts errId hv]

/-- C9 witness: `unknown-tool-xyz` is absent from the registry, gets
the permissive fallback, and a PDF-typed file fails its validation. -/
theorem C9_unknown_tool_fallback_unreachable_dispatch_witness :
    getToolConfig "unknown-tool-xyz" = ⟨["*/*"], 100 * 1024 * 1024⟩ ∧
    (validateFileForTool fA "unknown-tool-xyz").isValid = false :=
  ⟨(C9_unknown_tool_fallback_unreachable_dispatch "unknown-tool-xyz" (by decide)).1,
   ((C9_unknown_tool_fallback_unreachable_dispatch "unknown-tool-xyz"
      (by decide)).2 fA (by decide)).1⟩

/-- C10 (implicit): any `processFile` call whose generated job id is not
among the tracker's registered ids leaves the callback-registration
state unchanged and delivers nothing to any callback — `processFile`
never registers its own id, so all its progress operations act on an
unregistered key. -/
theorem C10_process_file_preserves_tracker (env : VendorEnv)
    (t : ProgressTracker) (jid : String) (file : MFile) (toolId : String)
    (opts : ProcessingOptions) (errId : String) (h : jid ∉ t.callbacks) :
    (processFile env t jid file toolId opts errId).2.1 = t ∧
    (processFile env t jid file toolId opts errId).2.2 = [] := by
  have her : t.callbacks.erase jid = t.callbacks := List.erase_of_not_mem h
  simp only [processFile]
  split
  · cases houtcome : (processFileByTool env file toolId opts).2 with
    | ok pf =>
      simp [houtcome, ProgressTracker.updateProgress, h,
        runUpdates_not_mem jid t h, ProgressTracker.completeProgress, her]
    | error err =>
      simp [houtcome, ProgressTracker.updateProgress, h,
        runUpdates_not_mem jid t h, ProgressTracker.removeProgress, her]
  · simp [ProgressTracker.removeProgress, her]

/-- C10 witness: a merge call under a tracker registered for a
different job id. -/
theorem C10_process_file_preserves_tracker_witness :
    (processFile envA ⟨["other"]⟩ "job1" fA "merge-pdf" {} "e1").2.1 = ⟨["other"]⟩ ∧
    (processFile envA ⟨["other"]⟩ "job1" fA "merge-pdf" {} "e1").2.2 = [] :=
  C10_process_file_preserves_tracker envA ⟨["other"]⟩ "job1" fA "merge-pdf" {}
    "e1" (by decide)
